import Mathlib

/-!
Shallow embedding of the `duration-fns` sources.

JavaScript numbers are modelled as exact rationals (`ℚ`): every concrete value the
library manipulates in the claims below (unit factors, integral millisecond counts)
is exactly representable, and IEEE special values are modelled explicitly where a
claim needs them (`JSNum`). IEEE negative zero has no counterpart in `ℚ`; the one
place the source distinguishes it (`floorTowardsZero`'s `|| 0`) normalizes it away,
so identifying `-0` with `0` is faithful to the observable behaviour.
-/

namespace DurationFns

/- Unit factors. Seconds/minutes/hours/days are the constants of src/src/Time.ts
lines 3-6. -/

def MILLISECONDS_IN_A_SECOND : ℚ := 1000

def MILLISECONDS_IN_A_MINUTE : ℚ := MILLISECONDS_IN_A_SECOND * 60

def MILLISECONDS_IN_AN_HOUR : ℚ := MILLISECONDS_IN_A_MINUTE * 60

def MILLISECONDS_IN_A_DAY : ℚ := MILLISECONDS_IN_AN_HOUR * 24

/-- Modelled from the spec: the unit-conversion module (src/unitConversion.ts is not
under src/) uses a fixed 7-day week. -/
def MILLISECONDS_IN_A_WEEK : ℚ := MILLISECONDS_IN_A_DAY * 7

/-- Modelled from the spec: calendar-approximate year length, 1 year = 365.25 days
(src/unitConversion.ts and src/lib/constants.ts are not under src/). -/
def MILLISECONDS_IN_A_YEAR : ℚ := MILLISECONDS_IN_A_DAY * (365.25 : ℚ)

/-- Modelled from the spec: 1 month = 1/12 year (src/unitConversion.ts is not under
src/). -/
def MILLISECONDS_IN_A_MONTH : ℚ := MILLISECONDS_IN_A_YEAR / 12

/-- Like `Math.floor`, but rounds negative numbers towards zero
(src/src/Time.ts lines 19-26; src/lib/floorTowardsZero.ts, not under src/, is the
same function per the spec). The source's `Math.ceil(value) || 0` normalizes IEEE
`-0` to `0`; `ℚ` has a unique zero, so the `|| 0` is the identity here. -/
def floorTowardsZero (value : ℚ) : ℤ :=
  if value < 0 then ⌈value⌉ else ⌊value⌋

/-- A runtime JavaScript object that may carry any of the eight duration fields;
`none` models an absent (or `undefined`) property. This is the runtime shape behind
both `Partial<TimeObject>` of src/src/Time.ts and the object arm of the coercion
layer's input union. -/
structure PartialTimeObject where
  years : Option ℚ := none
  months : Option ℚ := none
  weeks : Option ℚ := none
  days : Option ℚ := none
  hours : Option ℚ := none
  minutes : Option ℚ := none
  seconds : Option ℚ := none
  milliseconds : Option ℚ := none
deriving DecidableEq

/-- Convert an object specifying time in different units into milliseconds
(src/src/Time.ts lines 31-43). Only `days`, `hours`, `minutes`, `seconds` and
`milliseconds` are destructured; any other fields of the runtime object are
ignored, and a missing field defaults to 0. -/
def convertToMilliseconds (time : PartialTimeObject) : ℚ :=
  (time.days.getD 0) * MILLISECONDS_IN_A_DAY +
  (time.hours.getD 0) * MILLISECONDS_IN_AN_HOUR +
  (time.minutes.getD 0) * MILLISECONDS_IN_A_MINUTE +
  (time.seconds.getD 0) * MILLISECONDS_IN_A_SECOND +
  (time.milliseconds.getD 0)

/-- The `Time` class of src/src/Time.ts: its sole state is the `milliseconds`
field computed by the constructor. -/
structure Time where
  milliseconds : ℚ
deriving DecidableEq

/-- The `Time` constructor (src/src/Time.ts lines 66-68). -/
def Time.create (time : PartialTimeObject := {}) : Time :=
  ⟨convertToMilliseconds time⟩

/-- `Time.prototype.add` (src/src/Time.ts lines 79-81). -/
def Time.add (t : Time) (time : PartialTimeObject) : Time :=
  Time.create { milliseconds := some (t.milliseconds + convertToMilliseconds time) }

/-- `Time.prototype.subtract` (src/src/Time.ts lines 92-94). -/
def Time.subtract (t : Time) (time : PartialTimeObject) : Time :=
  Time.create { milliseconds := some (t.milliseconds - convertToMilliseconds time) }

/-- `Time.prototype.multiply` (src/src/Time.ts lines 105-107). -/
def Time.multiply (t : Time) (multiplier : ℚ) : Time :=
  Time.create { milliseconds := some (t.milliseconds * multiplier) }

/-- A JavaScript number outcome: a finite value or one of the IEEE-754 special
values that finite-operand arithmetic can produce. -/
inductive JSNum where
  | finite (q : ℚ)
  | posInf
  | negInf
  | nan
deriving DecidableEq

/-- IEEE-754 division for finite operands (an exact-rational divisor `0` is `+0`).
`a / 0` is `+∞` for positive `a`, `-∞` for negative `a`, and `NaN` for `a = 0`. -/
def jsDiv (a b : ℚ) : JSNum :=
  if b = 0 then
    if 0 < a then JSNum.posInf else if a < 0 then JSNum.negInf else JSNum.nan
  else JSNum.finite (a / b)

/-- `Time.prototype.divide` (src/src/Time.ts lines 118-120): the new instance wraps
`this.milliseconds / divisor`; the wrapped millisecond value is returned here (for a
finite quotient `q`, `new Time({milliseconds: q})` holds exactly `q`). -/
def Time.divide (t : Time) (divisor : ℚ) : JSNum :=
  jsDiv t.milliseconds divisor

/-- The complete eight-field duration components object (`Time` type of src/types.ts,
not under src/; its shape is fixed by src/src/normalizeTime.ts's unit table and the
spec's data model). -/
structure Duration where
  years : ℚ := 0
  months : ℚ := 0
  weeks : ℚ := 0
  days : ℚ := 0
  hours : ℚ := 0
  minutes : ℚ := 0
  seconds : ℚ := 0
  milliseconds : ℚ := 0
deriving DecidableEq

/-- Modelled from the spec: the all-zero components constant `DEFAULT_TIME` of
src/lib/constants.ts (not under src/). -/
def DEFAULT_TIME : Duration := {}

/-- Modelled from the spec: the all-zero components constant `ZERO` of
src/lib/units.ts (not under src/). -/
def ZERO : Duration := {}

/-- The eight unit keys. -/
inductive UnitKey where
  | years | months | weeks | days | hours | minutes | seconds | milliseconds
deriving DecidableEq

/-- Millisecond factor of each unit (the `convertTo` functions of the unit table in
src/src/normalizeTime.ts divide the resolved millisecond value by this factor;
toMilliseconds divides by 1). -/
def unitFactor : UnitKey → ℚ
  | .years => MILLISECONDS_IN_A_YEAR
  | .months => MILLISECONDS_IN_A_MONTH
  | .weeks => MILLISECONDS_IN_A_WEEK
  | .days => MILLISECONDS_IN_A_DAY
  | .hours => MILLISECONDS_IN_AN_HOUR
  | .minutes => MILLISECONDS_IN_A_MINUTE
  | .seconds => MILLISECONDS_IN_A_SECOND
  | .milliseconds => 1

/-- Read one field of a components object. -/
def Duration.get (d : Duration) : UnitKey → ℚ
  | .years => d.years
  | .months => d.months
  | .weeks => d.weeks
  | .days => d.days
  | .hours => d.hours
  | .minutes => d.minutes
  | .seconds => d.seconds
  | .milliseconds => d.milliseconds

/-- Write one field of a components object (`output[key] = v`). -/
def Duration.set (d : Duration) : UnitKey → ℚ → Duration
  | .years, v => { d with years := v }
  | .months, v => { d with months := v }
  | .weeks, v => { d with weeks := v }
  | .days, v => { d with days := v }
  | .hours, v => { d with hours := v }
  | .minutes, v => { d with minutes := v }
  | .seconds, v => { d with seconds := v }
  | .milliseconds, v => { d with milliseconds := v }

/-- The ordered unit table of src/src/normalizeTime.ts lines 17-50: years, months,
weeks, days, hours, minutes, seconds, milliseconds, in that fixed order. -/
def units : List UnitKey :=
  [.years, .months, .weeks, .days, .hours, .minutes, .seconds, .milliseconds]

/-- Modelled from the spec: `UNIT_KEYS` of src/lib/units.ts (not under src/), the
same eight keys in the same fixed order. -/
def UNIT_KEYS : List UnitKey := units

/-- Modelled from the spec: `subtractTime` of src/calculations.ts (not under src/)
resolves both arguments to canonical milliseconds and subtracts. Inside the
normalization loop the running tally is already a millisecond scalar and the
subtrahend `{[key]: c}` resolves to `c * unitFactor key` milliseconds. -/
def subtractTime (a b : ℚ) : ℚ := a - b

/-- The loop body of `normalizeTime` (src/src/normalizeTime.ts lines 64-67):
for each unit in table order, `output[key] = floorTowardsZero(convertTo(tally))`
and `tally = subtractTime(tally, {[key]: output[key]})`, the tally carried as a
millisecond scalar. -/
def normLoop : List UnitKey → ℚ → Duration → Duration
  | [], _, output => output
  | key :: rest, tally, output =>
    let c : ℤ := floorTowardsZero (tally / unitFactor key)
    normLoop rest (subtractTime tally ((c : ℚ) * unitFactor key))
      (Duration.set output key (c : ℚ))

/-- `normalizeTime` (src/src/normalizeTime.ts lines 60-70), over an input already
resolved to its canonical millisecond value. -/
def normalizeTime (time : ℚ) : Duration :=
  normLoop units time DEFAULT_TIME

/-- Modelled from the spec: the unit-conversion module's resolution of a components
object to canonical milliseconds (src/unitConversion.ts `toMilliseconds`, not under
src/): each field multiplied by its unit factor and summed (§4.2). -/
def Duration.toMilliseconds (d : Duration) : ℚ :=
  d.years * MILLISECONDS_IN_A_YEAR +
  d.months * MILLISECONDS_IN_A_MONTH +
  d.weeks * MILLISECONDS_IN_A_WEEK +
  d.days * MILLISECONDS_IN_A_DAY +
  d.hours * MILLISECONDS_IN_AN_HOUR +
  d.minutes * MILLISECONDS_IN_A_MINUTE +
  d.seconds * MILLISECONDS_IN_A_SECOND +
  d.milliseconds

/-! ### The coercion layer -/

/-- The two error kinds of the spec's error model (§7): ISO-8601 parse failures and
coercion type errors. -/
inductive DurationError where
  | parseError
  | typeError
deriving DecidableEq

/-- A duration input as a runtime JavaScript value. The static `TimeInput` union is
string | number | partial object, but at runtime any value can reach the coercion
layer; `boolJS`, `nullJS` and `undefinedJS` model those other shapes (a primitive
spreads no own enumerable properties). -/
inductive DurationInput where
  | str (s : String)
  | num (n : ℚ)
  | obj (o : PartialTimeObject)
  | boolJS (b : Bool)
  | nullJS
  | undefinedJS
deriving DecidableEq

/-- The object-spread `{ ...DEFAULT_TIME, ...time }`: every present field of `time`
overrides the zero default. -/
def mergeDefaults (o : PartialTimeObject) : Duration :=
  { years := o.years.getD 0
    months := o.months.getD 0
    weeks := o.weeks.getD 0
    days := o.days.getD 0
    hours := o.hours.getD 0
    minutes := o.minutes.getD 0
    seconds := o.seconds.getD 0
    milliseconds := o.milliseconds.getD 0 }

/-- Read a decimal number from the head of the character list: one or more digits,
optionally followed by `.` and one or more digits. Returns the value, whether a
fractional part was present, and the rest of the input. -/
def parseNumber (cs : List Char) : Option (ℚ × Bool × List Char) :=
  let digits := cs.takeWhile Char.isDigit
  let rest := cs.dropWhile Char.isDigit
  if digits.isEmpty then none
  else
    let intPart : ℚ := digits.foldl (fun acc c => acc * 10 + (c.toNat - 48 : ℕ)) 0
    match rest with
    | '.' :: rest2 =>
      let fracDigits := rest2.takeWhile Char.isDigit
      let rest3 := rest2.dropWhile Char.isDigit
      if fracDigits.isEmpty then none
      else
        let fracNum : ℚ := fracDigits.foldl (fun acc c => acc * 10 + (c.toNat - 48 : ℕ)) 0
        some (intPart + fracNum / (10 : ℚ) ^ fracDigits.length, true, rest3)
    | _ => some (intPart, false, rest)

/-- Read a run of `<number><designator>` pairs whose designators appear in the order
of `allowed`, each at most once, writing each value into its field. Returns the
updated components, the unconsumed input, how many designators were read, and
whether a fractional number has been seen (a fractional value is allowed only on
the last present designator, so reading another number after one fails). -/
def parseUnitRun : List (Char × UnitKey) → List Char → Duration → Nat → Bool →
    Option (Duration × List Char × Nat × Bool)
  | [], cs, d, count, fracSeen => some (d, cs, count, fracSeen)
  | (c, k) :: restAllowed, cs, d, count, fracSeen =>
    match parseNumber cs with
    | none => some (d, cs, count, fracSeen)
    | some (n, isFrac, rest) =>
      match rest with
      | [] => none
      | c2 :: rest2 =>
        if c2 = c then
          if fracSeen then none
          else parseUnitRun restAllowed rest2 (Duration.set d k n) (count + 1)
            (fracSeen || isFrac)
        else parseUnitRun restAllowed cs d count fracSeen

/-- Designators of the date part, in grammar order. -/
def dateDesignators : List (Char × UnitKey) :=
  [('Y', .years), ('M', .months), ('W', .weeks), ('D', .days)]

/-- Designators of the time part (after `T`), in grammar order. -/
def timeDesignators : List (Char × UnitKey) :=
  [('H', .hours), ('M', .minutes), ('S', .seconds)]

/-- Negate every field when the duration carried a leading `-`. -/
def applySign (neg : Bool) (d : Duration) : Duration :=
  if neg then
    { years := -d.years, months := -d.months, weeks := -d.weeks, days := -d.days
      hours := -d.hours, minutes := -d.minutes, seconds := -d.seconds
      milliseconds := -d.milliseconds }
  else d

/-- Modelled from the spec: `parseISODuration` (src/lib/parseISODuration.ts is not
under src/). Grammar (§4.5): optional leading `-` negating every field, then `P`,
then `nY nM nW nD` in order, then optionally `T` followed by at least one of
`nH nM nS`; designators case-sensitive, at most once each, fractional values only
on the last present designator, at least one designator overall, and the whole
string must be consumed; anything else is a parse error. -/
def parseISODuration (s : String) : Except DurationError Duration :=
  let cs := s.toList
  let signedBody : Bool × List Char :=
    match cs with
    | '-' :: rest => (true, rest)
    | _ => (false, cs)
  match signedBody.2 with
  | 'P' :: body =>
    match parseUnitRun dateDesignators body DEFAULT_TIME 0 false with
    | none => Except.error DurationError.parseError
    | some (d, rest, dateCount, fracSeen) =>
      match rest with
      | 'T' :: timeBody =>
        match parseUnitRun timeDesignators timeBody d 0 fracSeen with
        | none => Except.error DurationError.parseError
        | some (d2, rest2, timeCount, _) =>
          if rest2 = [] then
            if 0 < timeCount then Except.ok (applySign signedBody.1 d2)
            else Except.error DurationError.parseError
          else Except.error DurationError.parseError
      | [] =>
        if 0 < dateCount then Except.ok (applySign signedBody.1 d)
        else Except.error DurationError.parseError
      | _ => Except.error DurationError.parseError
  | _ => Except.error DurationError.parseError

/-- `toTimeObject` (src/unnamed/part_002): dispatch on the runtime type. Strings go
to the ISO parser; numbers become a milliseconds-only object; EVERY other value
(objects, but also booleans, null and undefined) falls through to the object-spread
branch `{ ...DEFAULT_TIME, ...time }`, which copies no own properties from a
primitive, null or undefined. No runtime type check is performed and no type error
is raised. -/
def toTimeObject : DurationInput → Except DurationError Duration
  | .str s => parseISODuration s
  | .num n => Except.ok { DEFAULT_TIME with milliseconds := n }
  | .obj o => Except.ok (mergeDefaults o)
  | .boolJS _ => Except.ok DEFAULT_TIME
  | .nullJS => Except.ok DEFAULT_TIME
  | .undefinedJS => Except.ok DEFAULT_TIME

/-! ### sum -/

/-- `durations.map(parse)` with JavaScript exception propagation: the first parse
failure aborts the whole call. `parse` (src/parse.ts) is not under src/; per the
spec (§4.8) its dispatch is exactly the code of `toTimeObject`. -/
def mapParse : List DurationInput → Except DurationError (List Duration)
  | [] => Except.ok []
  | i :: rest =>
    match toTimeObject i with
    | Except.error e => Except.error e
    | Except.ok d =>
      match mapParse rest with
      | Except.error e => Except.error e
      | Except.ok ds => Except.ok (d :: ds)

/-- The inner accumulation of `sum` (src/unnamed/part_001 lines 16-20): for each
unit key, `output[key] += duration[key]`. -/
def addKeys (output d : Duration) : Duration :=
  UNIT_KEYS.foldl (fun acc k => Duration.set acc k (acc.get k + d.get k)) output

/-- `sum` (src/unnamed/part_001): parse every input, then add the parsed components
field-wise into a zero-filled output. No conversion to a single millisecond total
and no normalization happens. -/
def sum (durations : List DurationInput) : Except DurationError Duration :=
  match mapParse durations with
  | Except.error e => Except.error e
  | Except.ok parsed => Except.ok (parsed.foldl addKeys ZERO)

/-- The unit factors as integers, in the order of the unit table. -/
def unitFactorZ : UnitKey → ℤ
  | .years => 31557600000
  | .months => 2629800000
  | .weeks => 604800000
  | .days => 86400000
  | .hours => 3600000
  | .minutes => 60000
  | .seconds => 1000
  | .milliseconds => 1

/-- The normalization loop specialized to integral millisecond tallies: every unit
factor is a positive integer, so the tally stays integral and each extracted
component is a truncating integer division. -/
def normLoopInt : List UnitKey → ℤ → Duration → Duration
  | [], _, output => output
  | key :: rest, tally, output =>
    let c : ℤ := tally.tdiv (unitFactorZ key)
    normLoopInt rest (tally - c * unitFactorZ key) (Duration.set output key (c : ℚ))

/-- Every one of the eight component fields is zero or negative. -/
def allFieldsNonpos (d : Duration) : Prop :=
  d.years ≤ 0 ∧ d.months ≤ 0 ∧ d.weeks ≤ 0 ∧ d.days ≤ 0 ∧
  d.hours ≤ 0 ∧ d.minutes ≤ 0 ∧ d.seconds ≤ 0 ∧ d.milliseconds ≤ 0

/-! ### Helper lemmas -/

theorem msSecond_eq : MILLISECONDS_IN_A_SECOND = 1000 := by
  norm_num [MILLISECONDS_IN_A_SECOND]

theorem msMinute_eq : MILLISECONDS_IN_A_MINUTE = 60000 := by
  norm_num [MILLISECONDS_IN_A_MINUTE, msSecond_eq]

theorem msHour_eq : MILLISECONDS_IN_AN_HOUR = 3600000 := by
  norm_num [MILLISECONDS_IN_AN_HOUR, msMinute_eq]

theorem msDay_eq : MILLISECONDS_IN_A_DAY = 86400000 := by
  norm_num [MILLISECONDS_IN_A_DAY, msHour_eq]

theorem msWeek_eq : MILLISECONDS_IN_A_WEEK = 604800000 := by
  norm_num [MILLISECONDS_IN_A_WEEK, msDay_eq]

theorem msYear_eq : MILLISECONDS_IN_A_YEAR = 31557600000 := by
  norm_num [MILLISECONDS_IN_A_YEAR, msDay_eq]

theorem msMonth_eq : MILLISECONDS_IN_A_MONTH = 2629800000 := by
  norm_num [MILLISECONDS_IN_A_MONTH, msYear_eq]

/-- On an integer divided by a positive integer, `floorTowardsZero` is truncating
integer division. -/
theorem fTZ_intCast_div (t f : ℤ) (hf : 0 < f) :
    floorTowardsZero ((t : ℚ) / (f : ℚ)) = t.tdiv f := by
  lift f to ℕ using hf.le with n
  have hn : 0 < n := by exact_mod_cast hf
  have hfQ : (0 : ℚ) < ((n : ℤ) : ℚ) := by exact_mod_cast hf
  rcases le_or_lt 0 t with ht | ht
  · have h0 : ¬((t : ℚ) / ((n : ℤ) : ℚ) < 0) :=
      not_lt.mpr (div_nonneg (by exact_mod_cast ht) hfQ.le)
    rw [floorTowardsZero, if_neg h0]
    rw [show ((n : ℤ) : ℚ) = (n : ℚ) by push_cast; ring]
    rw [Rat.floor_intCast_div_natCast, Int.tdiv_eq_ediv ht (by positivity)]
  · have h0 : (t : ℚ) / ((n : ℤ) : ℚ) < 0 :=
      div_neg_of_neg_of_pos (by exact_mod_cast ht) hfQ
    rw [floorTowardsZero, if_pos h0]
    have hceil : ⌈(t : ℚ) / ((n : ℤ) : ℚ)⌉ = -⌊((-t : ℤ) : ℚ) / (n : ℚ)⌋ := by
      rw [show (t : ℚ) / ((n : ℤ) : ℚ) = -(((-t : ℤ) : ℚ) / (n : ℚ)) by push_cast; ring,
        Int.ceil_neg]
    rw [hceil, Rat.floor_intCast_div_natCast]
    have h2 : (-t).tdiv (n : ℤ) = -t / (n : ℤ) :=
      Int.tdiv_eq_ediv (by omega) (by positivity)
    calc -(-t / (n : ℤ)) = -((-t).tdiv (n : ℤ)) := by rw [h2]
      _ = (-(-t)).tdiv (n : ℤ) := (Int.neg_tdiv _ _).symm
      _ = t.tdiv (n : ℤ) := by rw [neg_neg]

/-- If `q ≤ 0` then `floorTowardsZero q ≤ 0`. -/
theorem fTZ_nonpos {q : ℚ} (h : q ≤ 0) : floorTowardsZero q ≤ 0 := by
  rw [floorTowardsZero]
  split
  · exact Int.ceil_le.mpr (by exact_mod_cast h)
  · have hq : q = 0 := le_antisymm h (not_lt.mp (by assumption))
    simp [hq]

/-- If `q ≤ 0` then `q ≤ floorTowardsZero q` (truncation moves a non-positive value
towards zero). -/
theorem le_fTZ_of_nonpos {q : ℚ} (h : q ≤ 0) : q ≤ (floorTowardsZero q : ℚ) := by
  rw [floorTowardsZero]
  split
  · exact Int.le_ceil q
  · have hq : q = 0 := le_antisymm h (not_lt.mp (by assumption))
    simp [hq]

theorem unitFactor_eq_cast (k : UnitKey) : unitFactor k = ((unitFactorZ k : ℤ) : ℚ) := by
  cases k <;>
    norm_num [unitFactor, unitFactorZ, msYear_eq, msMonth_eq, msWeek_eq, msDay_eq,
      msHour_eq, msMinute_eq, msSecond_eq]

theorem unitFactorZ_pos (k : UnitKey) : 0 < unitFactorZ k := by
  cases k <;> norm_num [unitFactorZ]

theorem unitFactor_pos (k : UnitKey) : 0 < unitFactor k := by
  rw [unitFactor_eq_cast]
  exact_mod_cast unitFactorZ_pos k

theorem normLoop_intCast (ks : List UnitKey) (t : ℤ) (out : Duration) :
    normLoop ks (t : ℚ) out = normLoopInt ks t out := by
  induction ks generalizing t out with
  | nil => rfl
  | cons k rest ih =>
    have hc : floorTowardsZero ((t : ℚ) / unitFactor k) = t.tdiv (unitFactorZ k) := by
      rw [unitFactor_eq_cast]
      exact fTZ_intCast_div t _ (unitFactorZ_pos k)
    have htally : subtractTime (t : ℚ)
        ((floorTowardsZero ((t : ℚ) / unitFactor k) : ℚ) * unitFactor k) =
        ((t - t.tdiv (unitFactorZ k) * unitFactorZ k : ℤ) : ℚ) := by
      rw [subtractTime, hc, unitFactor_eq_cast]
      push_cast
      ring
    calc normLoop (k :: rest) (t : ℚ) out
        = normLoop rest
            (subtractTime (t : ℚ)
              ((floorTowardsZero ((t : ℚ) / unitFactor k) : ℚ) * unitFactor k))
            (Duration.set out k (floorTowardsZero ((t : ℚ) / unitFactor k) : ℚ)) := rfl
      _ = normLoopInt (k :: rest) t out := by
          rw [htally, hc, ih]
          rfl

/-- `normalizeTime` on an integral millisecond input computes by integer
arithmetic. -/
theorem normalizeTime_intCast (m : ℤ) :
    normalizeTime (m : ℚ) = normLoopInt units m DEFAULT_TIME := by
  rw [normalizeTime, normLoop_intCast]

/-- Reading a field just written. -/
theorem get_set_same (d : Duration) (k : UnitKey) (v : ℚ) :
    (Duration.set d k v).get k = v := by
  cases k <;> rfl

/-- Reading a field other than the one written. -/
theorem get_set_ne (d : Duration) (j k : UnitKey) (v : ℚ) (h : j ≠ k) :
    (Duration.set d k v).get j = d.get j := by
  cases j <;> cases k <;> first | rfl | exact absurd rfl h

/-- Every field of the zero-duration default is non-positive. -/
theorem default_time_get_nonpos (k : UnitKey) : DEFAULT_TIME.get k ≤ 0 := by
  cases k <;> norm_num [DEFAULT_TIME, Duration.get]

/-- A non-positive tally keeps every output field non-positive through the
normalization loop. -/
theorem normLoop_nonpos (ks : List UnitKey) (t : ℚ) (out : Duration)
    (ht : t ≤ 0) (hout : ∀ k, out.get k ≤ 0) :
    ∀ k, (normLoop ks t out).get k ≤ 0 := by
  induction ks generalizing t out with
  | nil => simpa [normLoop] using hout
  | cons key rest ih =>
    have hf : 0 < unitFactor key := unitFactor_pos key
    have hdiv : t / unitFactor key ≤ 0 := div_nonpos_of_nonpos_of_nonneg ht hf.le
    have hc : ((floorTowardsZero (t / unitFactor key) : ℤ) : ℚ) ≤ 0 := by
      exact_mod_cast fTZ_nonpos hdiv
    have ht2 : subtractTime t
        ((floorTowardsZero (t / unitFactor key) : ℚ) * unitFactor key) ≤ 0 := by
      rw [subtractTime]
      have hle : t / unitFactor key ≤ (floorTowardsZero (t / unitFactor key) : ℚ) :=
        le_fTZ_of_nonpos hdiv
      have := (div_le_iff₀ hf).mp hle
      linarith
    have hout2 : ∀ j, (Duration.set out key
        ((floorTowardsZero (t / unitFactor key) : ℤ) : ℚ)).get j ≤ 0 := by
      intro j
      by_cases hj : j = key
      · subst hj
        rw [get_set_same]
        exact hc
      · rw [get_set_ne _ _ _ _ hj]
        exact hout j
    intro k
    exact ih _ _ ht2 hout2 k

/-- Field read distributes over the per-key accumulation of `sum`. -/
theorem addKeys_get (a b : Duration) (k : UnitKey) :
    (addKeys a b).get k = a.get k + b.get k := by
  cases k <;>
    simp [addKeys, UNIT_KEYS, units, Duration.set, Duration.get, List.foldl]

/-- Folding the per-key accumulation over a list sums each field. -/
theorem foldl_addKeys_get (ds : List Duration) (init : Duration) (k : UnitKey) :
    (ds.foldl addKeys init).get k = init.get k + (ds.map (fun d => d.get k)).sum := by
  induction ds generalizing init with
  | nil => simp
  | cons d rest ih =>
    simp only [List.foldl_cons, List.map_cons, List.sum_cons, ih, addKeys_get]
    ring

/-- Parsing a list of plain-object inputs never fails and resolves each element by
the object-spread merge. -/
theorem mapParse_obj (ds : List PartialTimeObject) :
    mapParse (ds.map DurationInput.obj) = Except.ok (ds.map mergeDefaults) := by
  induction ds with
  | nil => rfl
  | cons o rest ih =>
    simp [mapParse, toTimeObject, ih]

/-- The ISO parser yields a parse error or a components object; it never produces a
type error. -/
theorem parseISODuration_total (s : String) :
    parseISODuration s = Except.error DurationError.parseError ∨
      ∃ d, parseISODuration s = Except.ok d := by
  rw [parseISODuration]
  repeat' split
  all_goals first
    | exact Or.inl rfl
    | exact Or.inr ⟨_, rfl⟩

/-! ### Claim theorems -/

/-- C4: normalization iterates the units in the fixed order years, months, weeks,
days, hours, minutes, seconds, milliseconds; at each unit it truncates the running
remainder expressed in that unit towards zero, subtracts that many whole units, and
carries the remainder to the next smaller unit. -/
theorem normalizeTime_greedy_order (m : ℚ) :
    normalizeTime m =
      (let years := floorTowardsZero (m / MILLISECONDS_IN_A_YEAR)
       let r1 := m - years * MILLISECONDS_IN_A_YEAR
       let months := floorTowardsZero (r1 / MILLISECONDS_IN_A_MONTH)
       let r2 := r1 - months * MILLISECONDS_IN_A_MONTH
       let weeks := floorTowardsZero (r2 / MILLISECONDS_IN_A_WEEK)
       let r3 := r2 - weeks * MILLISECONDS_IN_A_WEEK
       let days := floorTowardsZero (r3 / MILLISECONDS_IN_A_DAY)
       let r4 := r3 - days * MILLISECONDS_IN_A_DAY
       let hours := floorTowardsZero (r4 / MILLISECONDS_IN_AN_HOUR)
       let r5 := r4 - hours * MILLISECONDS_IN_AN_HOUR
       let minutes := floorTowardsZero (r5 / MILLISECONDS_IN_A_MINUTE)
       let r6 := r5 - minutes * MILLISECONDS_IN_A_MINUTE
       let seconds := floorTowardsZero (r6 / MILLISECONDS_IN_A_SECOND)
       let r7 := r6 - seconds * MILLISECONDS_IN_A_SECOND
       let ms := floorTowardsZero (r7 / 1)
       { years := (years : ℚ), months := (months : ℚ), weeks := (weeks : ℚ),
         days := (days : ℚ), hours := (hours : ℚ), minutes := (minutes : ℚ),
         seconds := (seconds : ℚ), milliseconds := (ms : ℚ) } : Duration) := rfl

/-- C2: for every integral millisecond value `m`, converting the normalized
components of `m` back to milliseconds (each component times its unit factor,
summed) yields exactly `m`. -/
theorem normalize_toMilliseconds_roundtrip (m : ℤ) :
    (normalizeTime ((m : ℤ) : ℚ)).toMilliseconds = (m : ℚ) := by
  rw [normalizeTime_intCast]
  simp only [units, normLoopInt, unitFactorZ, Duration.set, DEFAULT_TIME,
    Duration.toMilliseconds, Int.tdiv_one]
  rw [msYear_eq, msMonth_eq, msWeek_eq, msDay_eq, msHour_eq, msMinute_eq, msSecond_eq]
  generalize m.tdiv 31557600000 = c1
  generalize (m - c1 * 31557600000).tdiv 2629800000 = c2
  generalize (m - c1 * 31557600000 - c2 * 2629800000).tdiv 604800000 = c3
  generalize (m - c1 * 31557600000 - c2 * 2629800000 - c3 * 604800000).tdiv 86400000 = c4
  generalize (m - c1 * 31557600000 - c2 * 2629800000 - c3 * 604800000 -
    c4 * 86400000).tdiv 3600000 = c5
  generalize (m - c1 * 31557600000 - c2 * 2629800000 - c3 * 604800000 -
    c4 * 86400000 - c5 * 3600000).tdiv 60000 = c6
  generalize (m - c1 * 31557600000 - c2 * 2629800000 - c3 * 604800000 -
    c4 * 86400000 - c5 * 3600000 - c6 * 60000).tdiv 1000 = c7
  push_cast
  ring

/-- C3: whenever the canonical millisecond value is negative, every normalized
component is negative or zero; in particular the input `{days: -1, milliseconds: 1}`
normalizes to `{hours: -23, minutes: -59, seconds: -59, milliseconds: -999}` with
all other fields zero. -/
theorem normalize_nonpos_of_neg (m : ℚ) (hm : m < 0) :
    allFieldsNonpos (normalizeTime m) ∧
    normalizeTime (Duration.toMilliseconds { days := -1, milliseconds := 1 }) =
      ({ hours := -23, minutes := -59, seconds := -59, milliseconds := -999 } : Duration) := by
  constructor
  · have h := normLoop_nonpos units m DEFAULT_TIME hm.le default_time_get_nonpos
    exact ⟨h .years, h .months, h .weeks, h .days, h .hours, h .minutes, h .seconds,
      h .milliseconds⟩
  · rw [show Duration.toMilliseconds { days := -1, milliseconds := 1 } =
        (((-86399999 : ℤ) : ℚ)) by
      norm_num [Duration.toMilliseconds, msYear_eq, msMonth_eq, msWeek_eq, msDay_eq,
        msHour_eq, msMinute_eq, msSecond_eq]]
    rw [normalizeTime_intCast]
    decide

/-- Witness for C3 at the concrete input `m = -1`. -/
theorem normalize_nonpos_of_neg_witness :
    (-1 : ℚ) < 0 ∧
    (allFieldsNonpos (normalizeTime (-1)) ∧
      normalizeTime (Duration.toMilliseconds { days := -1, milliseconds := 1 }) =
        ({ hours := -23, minutes := -59, seconds := -59,
           milliseconds := -999 } : Duration)) :=
  ⟨by norm_num, normalize_nonpos_of_neg (-1) (by norm_num)⟩

/-- C5: `floorTowardsZero` discards the fractional part, rounding towards zero
(the magnitude is floored and the sign kept), with
`floorTowardsZero (-0.5) = 0`, `floorTowardsZero 1.5 = 1`,
`floorTowardsZero (-1.5) = -1`; a zero result is the unique zero (`ℚ` has no
negative zero, and the source's `|| 0` maps IEEE `-0` there). -/
theorem floorTowardsZero_spec :
    (∀ q : ℚ, floorTowardsZero q = if q < 0 then -⌊|q|⌋ else ⌊|q|⌋) ∧
    floorTowardsZero (-0.5 : ℚ) = 0 ∧
    floorTowardsZero (1.5 : ℚ) = 1 ∧
    floorTowardsZero (-1.5 : ℚ) = -1 ∧
    floorTowardsZero (0 : ℚ) = 0 := by
  refine ⟨fun q => ?_, ?_, ?_, ?_, ?_⟩
  · rw [floorTowardsZero]
    by_cases h : q < 0
    · rw [if_pos h, if_pos h, abs_of_neg h, Int.floor_neg, neg_neg]
    · rw [if_neg h, if_neg h, abs_of_nonneg (not_lt.mp h)]
  · rw [show (-0.5 : ℚ) = ((-1 : ℤ) : ℚ) / ((2 : ℤ) : ℚ) by norm_num,
      fTZ_intCast_div _ _ (by norm_num)]
    decide
  · rw [show (1.5 : ℚ) = ((3 : ℤ) : ℚ) / ((2 : ℤ) : ℚ) by norm_num,
      fTZ_intCast_div _ _ (by norm_num)]
    decide
  · rw [show (-1.5 : ℚ) = ((-3 : ℤ) : ℚ) / ((2 : ℤ) : ℚ) by norm_num,
      fTZ_intCast_div _ _ (by norm_num)]
    decide
  · rw [show (0 : ℚ) = ((0 : ℤ) : ℚ) by norm_num, floorTowardsZero]
    norm_num

/-- C1 (counterexample): `sum` does not normalize. `sum({days: 8})` keeps
`{days: 8}`, while normalizing the same canonical millisecond total yields
`{weeks: 1, days: 1}`; the two component objects differ, so `sum(inputs...)` is not
`normalize` of the inputs' millisecond total. -/
theorem sum_days8_counterexample :
    sum [DurationInput.obj { days := some 8 }] = Except.ok ({ days := 8 } : Duration) ∧
    normalizeTime (Duration.toMilliseconds ({ days := 8 } : Duration)) =
      ({ weeks := 1, days := 1 } : Duration) ∧
    ({ days := 8 } : Duration) ≠ ({ weeks := 1, days := 1 } : Duration) := by
  refine ⟨?_, ?_, by decide⟩
  · norm_num [sum, mapParse, toTimeObject, mergeDefaults, addKeys, UNIT_KEYS, units, ZERO,
      Duration.set, Duration.get]
  · rw [show Duration.toMilliseconds ({ days := 8 } : Duration) = ((691200000 : ℤ) : ℚ) by
      norm_num [Duration.toMilliseconds, msYear_eq, msMonth_eq, msWeek_eq, msDay_eq,
        msHour_eq, msMinute_eq, msSecond_eq]]
    rw [normalizeTime_intCast]
    decide

/-- C1 (amended): `sum` parses each input to a components object and adds the parsed
objects field by field over a zero-filled output, preserving each input's own unit
apportionment; the result is the raw component-wise sum (as in the source's own
example `sum({days: 1}, {days: 2, hours: 12}) = {days: 3, hours: 12}`), not a
normalization of the millisecond total. -/
theorem sum_componentwise :
    (∀ ds : List PartialTimeObject, ∃ out : Duration,
        sum (ds.map DurationInput.obj) = Except.ok out ∧
        ∀ k : UnitKey, out.get k = (ds.map fun o => (mergeDefaults o).get k).sum) ∧
    sum [DurationInput.obj { days := some 1 },
        DurationInput.obj { days := some 2, hours := some 12 }] =
      Except.ok ({ days := 3, hours := 12 } : Duration) := by
  constructor
  · intro ds
    refine ⟨(ds.map mergeDefaults).foldl addKeys ZERO, ?_, ?_⟩
    · rw [sum, mapParse_obj]
    · intro k
      rw [foldl_addKeys_get]
      have hz : ZERO.get k = 0 := by cases k <;> rfl
      rw [hz, zero_add, List.map_map]
      rfl
  · norm_num [sum, mapParse, toTimeObject, mergeDefaults, addKeys, UNIT_KEYS, units, ZERO,
      Duration.set, Duration.get]

/-- C6 (counterexample): a boolean reaches the coercion entry point and a value IS
returned — the zero duration — rather than any error being raised. -/
theorem toTimeObject_boolJS_value :
    toTimeObject (DurationInput.boolJS true) = Except.ok DEFAULT_TIME := rfl

/-- C6 (amended): the coercion entry point dispatches on string (ISO parse, which
can fail only with a parse error) and number; every other runtime value takes the
object-spread branch with no shape check, so booleans, null and undefined coerce to
the zero duration and no runtime type error is ever produced. -/
theorem toTimeObject_shape_dispatch :
    (∀ i : DurationInput,
        toTimeObject i = Except.error DurationError.parseError ∨
          ∃ d, toTimeObject i = Except.ok d) ∧
    (∀ b, toTimeObject (DurationInput.boolJS b) = Except.ok DEFAULT_TIME) ∧
    toTimeObject DurationInput.nullJS = Except.ok DEFAULT_TIME ∧
    toTimeObject DurationInput.undefinedJS = Except.ok DEFAULT_TIME ∧
    (∀ n, toTimeObject (DurationInput.num n) =
      Except.ok { DEFAULT_TIME with milliseconds := n }) ∧
    (∀ o, toTimeObject (DurationInput.obj o) = Except.ok (mergeDefaults o)) ∧
    (∀ s, toTimeObject (DurationInput.str s) = parseISODuration s) := by
  refine ⟨fun i => ?_, fun b => rfl, rfl, rfl, fun n => rfl, fun o => rfl, fun s => rfl⟩
  cases i with
  | str s => exact parseISODuration_total s
  | num n => exact Or.inr ⟨_, rfl⟩
  | obj o => exact Or.inr ⟨_, rfl⟩
  | boolJS b => exact Or.inr ⟨_, rfl⟩
  | nullJS => exact Or.inr ⟨_, rfl⟩
  | undefinedJS => exact Or.inr ⟨_, rfl⟩

/-- C7: dividing a duration by zero never raises; it yields `Infinity` when the
millisecond value is positive, `-Infinity` when negative, and `NaN` when zero, per
IEEE-754 semantics. -/
theorem divide_by_zero_ieee (x : ℚ) :
    Time.divide ⟨x⟩ 0 =
      (if 0 < x then JSNum.posInf else if x < 0 then JSNum.negInf else JSNum.nan) := by
  rw [Time.divide, jsDiv, if_pos rfl]

/-- C8: `add` returns a duration whose millisecond value is the sum of the two
resolved millisecond values, and `subtract` the difference; each result is a plain
millisecond-valued duration, not a components object. -/
theorem add_subtract_milliseconds (t : Time) (o : PartialTimeObject) :
    (t.add o).milliseconds = t.milliseconds + convertToMilliseconds o ∧
    (t.subtract o).milliseconds = t.milliseconds - convertToMilliseconds o := by
  constructor <;>
    norm_num [Time.add, Time.subtract, Time.create, convertToMilliseconds]

/-- C10: the `Time` class and `convertToMilliseconds` honor only days, hours,
minutes, seconds and milliseconds: years/months/weeks fields contribute nothing
(an object carrying only such fields constructs 0 milliseconds), unlike the
eight-unit components structure, where a year has a positive factor. -/
theorem convertToMilliseconds_ignores_calendar_fields :
    (∀ (o : PartialTimeObject) (y mo w : Option ℚ),
        convertToMilliseconds { o with years := y, months := mo, weeks := w } =
          convertToMilliseconds o) ∧
    (∀ y mo w : Option ℚ,
        (Time.create { years := y, months := mo, weeks := w }).milliseconds = 0) ∧
    Duration.toMilliseconds { years := 1 } ≠ 0 := by
  refine ⟨fun o y mo w => rfl, fun y mo w => ?_, ?_⟩
  · norm_num [Time.create, convertToMilliseconds]
  · norm_num [Duration.toMilliseconds, msYear_eq, msMonth_eq, msWeek_eq, msDay_eq,
      msHour_eq, msMinute_eq, msSecond_eq]

end DurationFns
